import Mathlib

/-!
Shallow embedding of the offline-first task sync engine
(`src/services/syncService.ts`, `src/services/taskService.ts`, and the
`Database` layer).  Rows of the SQLite tables are modelled as lists of
structures; every service method becomes a pure function on an explicit
`World` state.  Timestamps (`Date.now()`, `CURRENT_TIMESTAMP`) are `Nat`
values threaded explicitly.  Network effects (axios) are modelled as
inputs: a batch round-trip either delivers a list of per-item results or
fails at the transport level (`Except.error`), exactly the two ways the
`await axios.post` can resolve as seen by the caller.
-/

set_option autoImplicit false

namespace OfflineSync

/-- `sync_status` column of the `tasks` table: `'pending' | 'synced' | 'error'`. -/
inductive SyncStatus
  | pending
  | synced
  | error
deriving DecidableEq, Repr

/-- A row of the `tasks` table (the `Task` record of the repository).
`created_at`/`updated_at`/`last_synced_at` are millisecond timestamps. -/
structure Task where
  id : String
  title : String
  description : String
  completed : Bool
  is_deleted : Bool
  created_at : Nat
  updated_at : Nat
  sync_status : SyncStatus
  server_id : Option String := none
  last_synced_at : Option Nat := none
deriving DecidableEq, Repr

/-- A `Partial<Task>` object: each field is either absent (`none`) or
present with a value.  Spreading `{...existing, ...updates}` applies the
present fields over `existing`. -/
structure TaskPatch where
  id : Option String := none
  title : Option String := none
  description : Option String := none
  completed : Option Bool := none
  is_deleted : Option Bool := none
  created_at : Option Nat := none
  updated_at : Option Nat := none
  sync_status : Option SyncStatus := none
  server_id : Option (Option String) := none
  last_synced_at : Option (Option Nat) := none
deriving DecidableEq, Repr

/-- The JavaScript spread `{...t, ...p}`. -/
def applyPatch (t : Task) (p : TaskPatch) : Task where
  id := p.id.getD t.id
  title := p.title.getD t.title
  description := p.description.getD t.description
  completed := p.completed.getD t.completed
  is_deleted := p.is_deleted.getD t.is_deleted
  created_at := p.created_at.getD t.created_at
  updated_at := p.updated_at.getD t.updated_at
  sync_status := p.sync_status.getD t.sync_status
  server_id := p.server_id.getD t.server_id
  last_synced_at := p.last_synced_at.getD t.last_synced_at

/-- A full `Task` used where a `Partial<Task>` is expected (the conflict
path passes the resolved `Task` to `updateTask`): every field is present. -/
def Task.toPatch (t : Task) : TaskPatch where
  id := some t.id
  title := some t.title
  description := some t.description
  completed := some t.completed
  is_deleted := some t.is_deleted
  created_at := some t.created_at
  updated_at := some t.updated_at
  sync_status := some t.sync_status
  server_id := some t.server_id
  last_synced_at := some t.last_synced_at

/-- A row of the `sync_queue` table.  The repository declares the table
with columns `queue_id, task_id, action, updated_at, status, retry_count,
error_message` while `SyncService` additionally reads/writes `id`
(the rowid used by `ORDER BY id ASC` and `WHERE id=?`), `operation`,
`data`, `permanent_fail` and `error`; this structure carries the union of
both views (`operation` is the `action` column, `error` the error-message
column).  `data` holds the JSON payload already parsed (the code stores
`JSON.stringify(data)` and reads it back with `JSON.parse`, an identity
round-trip). -/
structure SyncQueueItem where
  id : Nat
  queue_id : String
  task_id : String
  operation : String
  data : TaskPatch := {}
  status : String := "pending"
  updated_at : Nat
  retry_count : Nat := 0
  permanent_fail : Bool := false
  error : Option String := none
deriving DecidableEq, Repr

/-- Local durable state: the `tasks` table, the `sync_queue` table (kept
in ascending rowid order, so the drain's `ORDER BY id ASC` returns it
as-is), the next rowid to assign, and the current clock reading used for
`CURRENT_TIMESTAMP` / `Date.now()` during a pass. -/
structure World where
  tasks : List Task
  queue : List SyncQueueItem
  nextRowId : Nat
  now : Nat
deriving DecidableEq, Repr

/-- One element of `results.results` in the batch response:
`{taskId, status, data?, serverData?, message?}`.  `status` is the raw
string the code compares against `'success'` and `'conflict'`. -/
structure ItemResult where
  taskId : String
  status : String
  data : Option TaskPatch := none
  serverData : Option Task := none
  message : Option String := none
deriving DecidableEq, Repr

/-- One element of the `operations` array of a `BatchSyncRequest`:
`{taskId, operation, data}`. -/
structure BatchOp where
  taskId : String
  operation : String
  data : TaskPatch
deriving DecidableEq, Repr

/-- The aggregate result of a `sync()` call: `{success, failed, skipped}`. -/
structure SyncResult where
  success : Nat
  failed : Nat
  skipped : Nat
deriving DecidableEq, Repr

/-- The `status` argument of `updateSyncStatus`: `"synced" | "error"`. -/
inductive UpdateStatus
  | synced
  | error
deriving DecidableEq, Repr

/-- `SYNC_BATCH_SIZE = parseInt(process.env.SYNC_BATCH_SIZE || "10")`:
the default batch bound. -/
def SYNC_BATCH_SIZE : Nat := 10

/-- `const MAX_RETRY = 3`. -/
def MAX_RETRY : Nat := 3

/-- The `timeout: 5000` option passed to the connectivity probe. -/
def CONNECTIVITY_TIMEOUT_MS : Nat := 5000

/-- `Database.getTask`: `SELECT * FROM tasks WHERE id = ?` (first row or
`null`). -/
def Database.getTask (w : World) (id : String) : Option Task :=
  w.tasks.find? (fun t => t.id == id)

/-- `Database.updateTask`: `UPDATE tasks SET title=?, description=?,
completed=?, updated_at=?, is_deleted=?, sync_status=?, server_id=?,
last_synced_at=? WHERE id = ?` — the `id` and `created_at` columns are not
in the SET list. -/
def Database.updateTask (w : World) (task : Task) : World :=
  { w with tasks := w.tasks.map (fun t =>
      if t.id == task.id then
        { t with
          title := task.title
          description := task.description
          completed := task.completed
          updated_at := task.updated_at
          is_deleted := task.is_deleted
          sync_status := task.sync_status
          server_id := task.server_id
          last_synced_at := task.last_synced_at }
      else t) }

/-- `Database.addToSyncQueue`: `INSERT INTO sync_queue (queue_id, task_id,
action, updated_at, status) VALUES (?, ?, ?, ?, 'pending')` with
`queue_id = id + "-" + Date.now()`; the remaining columns take their
defaults (`retry_count` 0, no error, no permanent-failure mark, empty
payload).  `now` is the `Date.now()` reading. -/
def Database.addToSyncQueue (w : World) (id : String) (action : String)
    (updated_at : Nat) (now : Nat) : World :=
  { w with
    queue := w.queue ++
      [{ id := w.nextRowId
         queue_id := id ++ "-" ++ toString now
         task_id := id
         operation := action
         updated_at := updated_at }]
    nextRowId := w.nextRowId + 1 }

/-- `TaskService.getTask`: the stored row, hidden when absent or
soft-deleted. -/
def TaskService.getTask (w : World) (id : String) : Option Task :=
  match Database.getTask w id with
  | none => none
  | some t => if t.is_deleted then none else some t

/-- `TaskService.updateTask(id, updates)`: load the row (bail out with
`null` when absent or deleted), spread the updates over it, overwrite
`updated_at` with the current clock and `sync_status` with `'pending'`,
persist, then enqueue an `'update'` mutation stamped with `Date.now()`.
`now` stands for both clock reads of the call. -/
def TaskService.updateTask (w : World) (id : String) (updates : TaskPatch)
    (now : Nat) : Option Task × World :=
  match Database.getTask w id with
  | none => (none, w)
  | some existing =>
    if existing.is_deleted then (none, w)
    else
      let updatedTask : Task :=
        { applyPatch existing updates with
          updated_at := now
          sync_status := SyncStatus.pending }
      let w1 := Database.updateTask w updatedTask
      let w2 := Database.addToSyncQueue w1 id "update" now now
      (some updatedTask, w2)

/-- `SyncService.resolveConflict(localTask, serverTask)`: the local copy
when its `updated_at` is strictly later, otherwise the server copy. -/
def SyncService.resolveConflict (localTask serverTask : Task) : Task :=
  if serverTask.updated_at < localTask.updated_at then localTask else serverTask

/-- `SyncService.updateSyncStatus(taskId, status, serverData?)`.  On
`'synced'`: set the row's `sync_status` and `last_synced_at`
(`CURRENT_TIMESTAMP`), `DELETE FROM sync_queue WHERE task_id=?`, then — if
server data was returned — apply it through `taskService.updateTask`.  On
`'error'`: set the row's `sync_status` only. -/
def SyncService.updateSyncStatus (w : World) (taskId : String)
    (status : UpdateStatus) (serverData : Option TaskPatch) : World :=
  match status with
  | UpdateStatus.synced =>
    let w1 := { w with tasks := w.tasks.map (fun (t : Task) =>
        if t.id == taskId then
          { t with sync_status := SyncStatus.synced, last_synced_at := some w.now }
        else t) }
    let w2 := { w1 with queue := w1.queue.filter (fun q => !(q.task_id == taskId)) }
    match serverData with
    | some d => (TaskService.updateTask w2 taskId d w2.now).2
    | none => w2
  | UpdateStatus.error =>
    { w with tasks := w.tasks.map (fun (t : Task) =>
        if t.id == taskId then { t with sync_status := SyncStatus.error } else t) }

/-- `SyncService.handleSyncError(item, error)`: bump the retry count from
the drained snapshot's value; at `MAX_RETRY` or beyond also set
`permanent_fail=1`; always record the message (`error.message ||
"Unknown sync error"`); the `UPDATE ... WHERE id=?` targets the rowid. -/
def SyncService.handleSyncError (w : World) (item : SyncQueueItem)
    (errMsg : String) : World :=
  let retry := item.retry_count + 1
  let msg := if errMsg == "" then "Unknown sync error" else errMsg
  if MAX_RETRY ≤ retry then
    { w with queue := w.queue.map (fun q =>
        if q.id == item.id then
          { q with retry_count := retry, error := some msg, permanent_fail := true }
        else q) }
  else
    { w with queue := w.queue.map (fun q =>
        if q.id == item.id then
          { q with retry_count := retry, error := some msg }
        else q) }

/-- The `operations` array built from a batch:
`items.map(i => ({taskId: i.task_id, operation: i.operation, data:
JSON.parse(i.data)}))`. -/
def SyncService.buildRequest (items : List SyncQueueItem) : List BatchOp :=
  items.map (fun i => { taskId := i.task_id, operation := i.operation, data := i.data })

/-- The `for (const res of results.results)` loop of `processBatch`,
with the success/failed counters as accumulators.  A result whose
`taskId` matches no batch item is skipped (`continue`).  On `'success'`
the matched record is marked synced (with any returned data).  On
`'conflict'` the local copy is loaded; dereferencing a missing/deleted
local task throws (modelled as `Except.error` carrying the state at the
throw point, to be caught by `sync`'s batch-level handler); a response
without `serverData` makes the JS timestamp comparison false, so the
"resolved" value is `undefined` and spreading it applies no fields.  Any
other status takes the failure path. -/
def SyncService.processResults (items : List SyncQueueItem) :
    List ItemResult → World → Nat → Nat → Except World (World × Nat × Nat)
  | [], w, s, f => Except.ok (w, s, f)
  | res :: rest, w, s, f =>
    match items.find? (fun i => i.task_id == res.taskId) with
    | none => SyncService.processResults items rest w s f
    | some item =>
      if res.status == "success" then
        SyncService.processResults items rest
          (SyncService.updateSyncStatus w item.task_id UpdateStatus.synced res.data)
          (s + 1) f
      else if res.status == "conflict" then
        match TaskService.getTask w item.task_id with
        | none => Except.error w
        | some localTask =>
          let w1 :=
            match res.serverData with
            | some serverTask =>
              let resolved := SyncService.resolveConflict localTask serverTask
              (TaskService.updateTask w item.task_id resolved.toPatch w.now).2
            | none => (TaskService.updateTask w item.task_id {} w.now).2
          let w2 := SyncService.updateSyncStatus w1 item.task_id UpdateStatus.synced none
          SyncService.processResults items rest w2 (s + 1) f
      else
        SyncService.processResults items rest
          (SyncService.handleSyncError w item (res.message.getD ""))
          s (f + 1)

/-- `SyncService.processBatch`: send the request and interpret the
per-item results.  `resp` is how the `axios.post` round-trip resolved: a
transport failure rejects before any per-item handling. -/
def SyncService.processBatch (w : World) (items : List SyncQueueItem)
    (resp : Except Unit (List ItemResult)) : Except World (World × Nat × Nat) :=
  match resp with
  | Except.error _ => Except.error w
  | Except.ok results => SyncService.processResults items results w 0 0

/-- Structural core of the batching loop: `fuel` bounds the number of
iterations (each iteration consumes at least one element, so any fuel of
at least the list's length is exact). -/
def chunksGo {α : Type} : Nat → List α → List (List α)
  | _, [] => []
  | 0, _ :: _ => []
  | fuel + 1, a :: l =>
    ((a :: l).take SYNC_BATCH_SIZE) :: chunksGo fuel ((a :: l).drop SYNC_BATCH_SIZE)

/-- The `for (let i = 0; i < queue.length; i += SYNC_BATCH_SIZE)
batches.push(queue.slice(i, i + SYNC_BATCH_SIZE))` loop: contiguous
slices of at most `SYNC_BATCH_SIZE` elements.  The loop runs at most
`l.length` iterations, which serves as the structural fuel. -/
def chunkList {α : Type} (l : List α) : List (List α) := chunksGo l.length l

/-- The body of `sync`'s `for (const batch of batches)` loop: play the
batch; on a thrown batch (`catch`) run `handleSyncError(item, Error
("Batch failed"))` for every item of the batch and count each as failed. -/
def SyncService.syncBatchStep (w : World) (s f : Nat) (batch : List SyncQueueItem)
    (resp : Except Unit (List ItemResult)) : World × Nat × Nat :=
  match SyncService.processBatch w batch resp with
  | Except.ok (w', bs, bf) => (w', s + bs, f + bf)
  | Except.error wFail =>
    (batch.foldl (fun wa item => SyncService.handleSyncError wa item "Batch failed") wFail,
     s, f + batch.length)

/-- Sequential processing of the batches; `remote k` is how the `k`-th
round-trip resolved, and the returned list logs the request sent on each
round-trip (one per batch). -/
def SyncService.syncLoop (remote : Nat → Except Unit (List ItemResult)) :
    Nat → World → Nat → Nat → List (List SyncQueueItem) →
    World × Nat × Nat × List (List BatchOp)
  | _, w, s, f, [] => (w, s, f, [])
  | k, w, s, f, batch :: rest =>
    let req := SyncService.buildRequest batch
    let step := SyncService.syncBatchStep w s f batch (remote k)
    let out := SyncService.syncLoop remote (k + 1) step.1 step.2.1 step.2.2 rest
    (out.1, out.2.1, out.2.2.1, req :: out.2.2.2)

/-- `SyncService.sync()`: drain the whole queue (`SELECT * FROM sync_queue
ORDER BY id ASC`; the model keeps the table in rowid order), return zero
counts on an empty queue, otherwise batch and process sequentially.
Besides the `{success, failed, skipped}` result and the final state it
returns the log of batch requests sent. -/
def SyncService.sync (w : World) (remote : Nat → Except Unit (List ItemResult)) :
    SyncResult × World × List (List BatchOp) :=
  let queue := w.queue
  if queue.isEmpty then
    ({ success := 0, failed := 0, skipped := 0 }, w, [])
  else
    let batches := chunkList queue
    let out := SyncService.syncLoop remote 0 w 0 0 batches
    ({ success := out.2.1, failed := out.2.2.1, skipped := 0 }, out.1, out.2.2.2)

/-- `SyncService.checkConnectivity()`: `axios.get(health, {timeout: 5000})`
inside try/catch.  `healthResponseMs` is how long the health endpoint
took to answer (`none` when it errored or never answered): the probe
resolves `true` exactly when an answer arrived within the timeout, and
touches no local state. -/
def SyncService.checkConnectivity (w : World) (healthResponseMs : Option Nat) :
    Bool × World :=
  match healthResponseMs with
  | some t => (decide (t ≤ CONNECTIVITY_TIMEOUT_MS), w)
  | none => (false, w)

/-! ### Derived forms used to state properties -/

/-- The effect of one failure-path visit on the queue entry it targets:
retry count bumped by one, message recorded, and the permanent mark set
exactly when the new count reaches `MAX_RETRY` (otherwise the existing
mark is kept).  This is `handleSyncError`'s update expressed as a
function of the targeted row. -/
def retryBump (msg : String) (q : SyncQueueItem) : SyncQueueItem :=
  let retry := q.retry_count + 1
  let m := if msg == "" then "Unknown sync error" else msg
  if MAX_RETRY ≤ retry then
    { q with retry_count := retry, error := some m, permanent_fail := true }
  else
    { q with retry_count := retry, error := some m }

/-- The row transformation `handleSyncError w item msg` applies to every
queue row (the `UPDATE ... WHERE id=?` hits rows whose rowid matches the
drained snapshot `item`, and writes the snapshot's bumped counter). -/
def hseEntry (item : SyncQueueItem) (msg : String) (q : SyncQueueItem) : SyncQueueItem :=
  if q.id == item.id then
    { q with
      retry_count := item.retry_count + 1
      error := some (if msg == "" then "Unknown sync error" else msg)
      permanent_fail := if MAX_RETRY ≤ item.retry_count + 1 then true else q.permanent_fail }
  else q

/-- Scenario driver: a sequence of `updateTask` mutations on one record,
each given its patch and its `Date.now()` reading. -/
def replayUpdates (idStr : String) : List (TaskPatch × Nat) → World → World
  | [], w => w
  | (p, t) :: rest, w => replayUpdates idStr rest (TaskService.updateTask w idStr p t).2

/-- The queue rows a sequence of `updateTask` mutations is expected to
append: one fresh `'update'` entry per mutation, in mutation order, with
consecutive rowids and all bookkeeping columns at their initial values. -/
def expectedEntries (idStr : String) : Nat → List (TaskPatch × Nat) → List SyncQueueItem
  | _, [] => []
  | row, (_, t) :: rest =>
    { id := row, queue_id := idStr ++ "-" ++ toString t, task_id := idStr,
      operation := "update", updated_at := t } :: expectedEntries idStr (row + 1) rest

/-! ### Concrete scenario inputs -/

/-- A local record whose `updated_at` equals the server copy's. -/
def tieLocal : Task :=
  { id := "L", title := "local", description := "", completed := false,
    is_deleted := false, created_at := 0, updated_at := 100,
    sync_status := SyncStatus.pending }

/-- A server record whose `updated_at` equals the local copy's. -/
def tieServer : Task :=
  { id := "R", title := "server", description := "", completed := true,
    is_deleted := false, created_at := 0, updated_at := 100,
    sync_status := SyncStatus.synced }

/-- A server record strictly older than `tieLocal`. -/
def olderServer : Task :=
  { id := "R", title := "server", description := "", completed := true,
    is_deleted := false, created_at := 0, updated_at := 50,
    sync_status := SyncStatus.synced }

/-- Record `A`, locally created and pending sync. -/
def taskA : Task :=
  { id := "A", title := "t", description := "", completed := false,
    is_deleted := false, created_at := 100, updated_at := 100,
    sync_status := SyncStatus.pending }

/-- The queued `create` for record `A`. -/
def queuedCreateA : SyncQueueItem :=
  { id := 1, queue_id := "A-100", task_id := "A", operation := "create",
    updated_at := 100 }

/-- State with one record `A` and one queued `create` for it. -/
def worldA : World :=
  { tasks := [taskA], queue := [queuedCreateA], nextRowId := 2, now := 200 }

/-- Remote answering `success` for `A` together with authoritative data
(the assigned `server_id`). -/
def remoteSuccessWithData : Nat → Except Unit (List ItemResult) := fun _ =>
  Except.ok [{ taskId := "A", status := "success",
               data := some { server_id := some (some "srv-1") } }]

/-- A second record used to observe frame effects. -/
def taskB : Task :=
  { id := "B", title := "b", description := "", completed := false,
    is_deleted := false, created_at := 0, updated_at := 50,
    sync_status := SyncStatus.pending }

/-- First queued mutation for record `A`. -/
def queuedA1 : SyncQueueItem :=
  { id := 1, queue_id := "A-1", task_id := "A", operation := "create",
    updated_at := 100 }

/-- Second queued mutation for record `A` (no outcome of its own below). -/
def queuedA2 : SyncQueueItem :=
  { id := 2, queue_id := "A-2", task_id := "A", operation := "update",
    updated_at := 110 }

/-- Queued mutation for record `B`. -/
def queuedB1 : SyncQueueItem :=
  { id := 3, queue_id := "B-1", task_id := "B", operation := "update",
    updated_at := 50 }

/-- State with two pending entries for `A` and one for `B`. -/
def worldAB : World :=
  { tasks := [taskA, taskB], queue := [queuedA1, queuedA2, queuedB1],
    nextRowId := 4, now := 300 }

/-- Remote answering `success` for `A` only (no data). -/
def remoteSuccessA : Nat → Except Unit (List ItemResult) := fun _ =>
  Except.ok [{ taskId := "A", status := "success" }]

/-- Record `C`, pending sync. -/
def taskC : Task :=
  { id := "C", title := "c", description := "", completed := false,
    is_deleted := false, created_at := 0, updated_at := 10,
    sync_status := SyncStatus.pending }

/-- The queued `update` for record `C`. -/
def queuedC1 : SyncQueueItem :=
  { id := 1, queue_id := "C-1", task_id := "C", operation := "update",
    updated_at := 10 }

/-- State with one record `C` and one queued `update` for it. -/
def worldC : World :=
  { tasks := [taskC], queue := [queuedC1], nextRowId := 2, now := 400 }

/-- Remote answering a business failure for `C`. -/
def remoteFailC : Nat → Except Unit (List ItemResult) := fun _ =>
  Except.ok [{ taskId := "C", status := "failed", message := some "boom" }]

/-- Record `D`, whose queue entry has exhausted its retries. -/
def taskD : Task :=
  { id := "D", title := "d", description := "", completed := false,
    is_deleted := false, created_at := 0, updated_at := 20,
    sync_status := SyncStatus.error }

/-- A queue entry already marked permanently failed (`retry_count` 3). -/
def queuedD1 : SyncQueueItem :=
  { id := 1, queue_id := "D-1", task_id := "D", operation := "update",
    updated_at := 20, retry_count := 3, permanent_fail := true, error := some "x" }

/-- State whose only queue entry is permanently failed. -/
def worldD : World :=
  { tasks := [taskD], queue := [queuedD1], nextRowId := 2, now := 500 }

/-- A remote that fails every round-trip at the transport level. -/
def remoteDown : Nat → Except Unit (List ItemResult) := fun _ => Except.error ()

/-- Two queue entries with distinct rowids, for the transport-failure
witness. -/
def queuedE1 : SyncQueueItem :=
  { id := 1, queue_id := "E-1", task_id := "E", operation := "create",
    updated_at := 1 }

/-- Second entry of the transport-failure witness state. -/
def queuedF1 : SyncQueueItem :=
  { id := 2, queue_id := "F-1", task_id := "F", operation := "update",
    updated_at := 2, retry_count := 2 }

/-- State with two queue entries and no matching remote. -/
def worldEF : World :=
  { tasks := [], queue := [queuedE1, queuedF1], nextRowId := 3, now := 600 }

/-- The `k`-th of 25 queued items for the batching witness. -/
def batchItem (k : Nat) : SyncQueueItem :=
  { id := k + 1, queue_id := "T" ++ toString k ++ "-0",
    task_id := "T" ++ toString k, operation := "update", updated_at := k }

/-- State with 25 queued items. -/
def world25 : World :=
  { tasks := [], queue := (List.range 25).map batchItem, nextRowId := 26, now := 1000 }

/-- Record `X` for the enqueue/no-deduplication witness. -/
def taskX : Task :=
  { id := "X", title := "x", description := "", completed := false,
    is_deleted := false, created_at := 0, updated_at := 5,
    sync_status := SyncStatus.synced }

/-- State holding only record `X` with an empty queue. -/
def worldX : World :=
  { tasks := [taskX], queue := [], nextRowId := 0, now := 0 }

/-- Three successive local mutations of `X` before any sync pass. -/
def threeUpdates : List (TaskPatch × Nat) :=
  [({}, 10), ({ title := some "a" }, 11), ({ completed := some true }, 12)]

/-- Two batch items sharing one `task_id`, for the matching witness. -/
def dupItem1 : SyncQueueItem :=
  { id := 1, queue_id := "T-1", task_id := "T", operation := "create",
    updated_at := 1 }

/-- The later duplicate entry for the same record. -/
def dupItem2 : SyncQueueItem :=
  { id := 2, queue_id := "T-2", task_id := "T", operation := "update",
    updated_at := 2 }

/-- The duplicate-id batch. -/
def dupItems : List SyncQueueItem := [dupItem1, dupItem2]

/-- A per-item result naming a record absent from the batch. -/
def strayResult : ItemResult := { taskId := "Z", status := "success" }

/-- A per-item result for the duplicated record. -/
def dupResult : ItemResult := { taskId := "T", status := "failed", message := some "m" }

/-- A small state for the matching witness. -/
def worldT : World :=
  { tasks := [], queue := dupItems, nextRowId := 3, now := 700 }

/-! ### Helper lemmas -/

theorem hseEntry_id (item : SyncQueueItem) (msg : String) (q : SyncQueueItem) :
    (hseEntry item msg q).id = q.id := by
  unfold hseEntry
  split <;> rfl

theorem retryBump_id (msg : String) (q : SyncQueueItem) :
    (retryBump msg q).id = q.id := by
  unfold retryBump
  by_cases h : MAX_RETRY ≤ q.retry_count + 1 <;> simp [h]

theorem hseEntry_self (item : SyncQueueItem) (msg : String) :
    hseEntry item msg item = retryBump msg item := by
  by_cases hmr : MAX_RETRY ≤ item.retry_count + 1 <;>
    simp [hseEntry, retryBump, hmr]

theorem handleSyncError_eq (w : World) (item : SyncQueueItem) (msg : String) :
    SyncService.handleSyncError w item msg =
      { w with queue := w.queue.map (hseEntry item msg) } := by
  unfold SyncService.handleSyncError
  by_cases h : MAX_RETRY ≤ item.retry_count + 1
  · simp only [if_pos h]
    congr 1
    apply List.map_congr_left
    intro q _
    by_cases hq : q.id == item.id <;> simp [hseEntry, hq, h]
  · simp only [if_neg h]
    congr 1
    apply List.map_congr_left
    intro q _
    by_cases hq : q.id == item.id <;> simp [hseEntry, hq, h]

theorem chunksGo_flatten {α : Type} :
    ∀ (n : Nat) (l : List α), l.length ≤ n → (chunksGo n l).flatten = l := by
  intro n
  induction n with
  | zero =>
    intro l h
    have hl : l = [] := List.eq_nil_of_length_eq_zero (Nat.le_zero.mp h)
    subst hl
    rfl
  | succ n ih =>
    intro l h
    match l with
    | [] => rfl
    | a :: t =>
      simp only [chunksGo, List.flatten_cons]
      rw [ih ((a :: t).drop SYNC_BATCH_SIZE)
          (by
            simp only [List.length_drop, List.length_cons, SYNC_BATCH_SIZE]
            simp only [List.length_cons] at h
            omega)]
      exact List.take_append_drop _ _

theorem chunkList_flatten {α : Type} (l : List α) : (chunkList l).flatten = l :=
  chunksGo_flatten l.length l (Nat.le_refl _)

theorem chunksGo_length {α : Type} :
    ∀ (n : Nat) (l : List α), l.length ≤ n → l ≠ [] →
      (chunksGo n l).length = (l.length + (SYNC_BATCH_SIZE - 1)) / SYNC_BATCH_SIZE := by
  intro n
  induction n with
  | zero =>
    intro l h hne
    exact absurd (List.eq_nil_of_length_eq_zero (Nat.le_zero.mp h)) hne
  | succ n ih =>
    intro l h hne
    match l with
    | [] => exact absurd rfl hne
    | a :: t =>
      by_cases hd : (a :: t).drop SYNC_BATCH_SIZE = []
      · have hlen : (a :: t).length ≤ SYNC_BATCH_SIZE := List.drop_eq_nil_iff.mp hd
        simp only [chunksGo, hd]
        simp only [List.length_cons, List.length_nil]
        simp only [List.length_cons] at hlen
        simp only [SYNC_BATCH_SIZE] at hlen ⊢
        omega
      · have hlen : SYNC_BATCH_SIZE < (a :: t).length := by
          by_contra hc
          exact hd (List.drop_eq_nil_iff.mpr (Nat.le_of_not_lt hc))
        simp only [chunksGo, List.length_cons]
        rw [ih ((a :: t).drop SYNC_BATCH_SIZE)
            (by
              simp only [List.length_drop, List.length_cons, SYNC_BATCH_SIZE]
              simp only [List.length_cons] at h
              omega)
            hd]
        simp only [List.length_drop, List.length_cons] at hlen ⊢
        simp only [SYNC_BATCH_SIZE] at hlen ⊢
        omega

theorem foldl_handleSyncError_queue (msg : String) :
    ∀ (its : List SyncQueueItem) (w : World),
      (∀ i ∈ its, ∀ q ∈ w.queue, q.id = i.id → q = i) →
      (its.map (fun i => i.id)).Nodup →
      (its.foldl (fun wa i => SyncService.handleSyncError wa i msg) w).queue =
        w.queue.map (fun q => if its.any (fun i => i.id == q.id) then retryBump msg q else q) := by
  intro its
  induction its with
  | nil =>
    intro w _ _
    simp
  | cons i rest ih =>
    intro w hq hnd
    simp only [List.map_cons, List.nodup_cons] at hnd
    obtain ⟨hhead, hnd'⟩ := hnd
    have hq' : ∀ j ∈ rest, ∀ q ∈ (SyncService.handleSyncError w i msg).queue,
        q.id = j.id → q = j := by
      intro j hj q hqmem hid
      rw [handleSyncError_eq] at hqmem
      simp only [List.mem_map] at hqmem
      obtain ⟨q0, hq0, rfl⟩ := hqmem
      rw [hseEntry_id] at hid
      by_cases h0 : q0.id = i.id
      · have hji : j.id = i.id := by rw [← hid, h0]
        exact absurd (hji ▸ List.mem_map_of_mem (fun j => j.id) hj) hhead
      · have hun : hseEntry i msg q0 = q0 := by
          simp [hseEntry, h0]
        rw [hun]
        exact hq j (List.mem_cons_of_mem _ hj) q0 hq0 hid
    rw [List.foldl_cons, ih (SyncService.handleSyncError w i msg) hq' hnd',
      handleSyncError_eq, List.map_map]
    apply List.map_congr_left
    intro q0 hq0mem
    simp only [Function.comp_apply]
    by_cases h0 : q0.id = i.id
    · have hq0i : q0 = i := hq i (List.mem_cons_self _ _) q0 hq0mem h0
      have hbump : hseEntry i msg q0 = retryBump msg q0 := by
        rw [hq0i]
        exact hseEntry_self i msg
      have hrest : rest.any (fun j => j.id == q0.id) = false := by
        rw [List.any_eq_false]
        intro j hj
        simp only [beq_iff_eq]
        intro hji
        have hjid : j.id = i.id := by rw [hji, h0]
        exact hhead (hjid ▸ List.mem_map_of_mem (fun j => j.id) hj)
      have hLHS : rest.any (fun j => j.id == (retryBump msg q0).id) = false := by
        rw [retryBump_id]
        exact hrest
      rw [hbump, hLHS]
      have hi : (i.id == q0.id) = true := by simp [h0]
      simp [List.any_cons, hi]
    · have hentry : hseEntry i msg q0 = q0 := by
        simp [hseEntry, h0]
      rw [hentry]
      have hi : (i.id == q0.id) = false := by
        simp only [beq_eq_false_iff_ne, ne_eq]
        exact fun h => h0 h.symm
      simp [List.any_cons, hi]

theorem syncBatchStep_transportFail (w : World) (s f : Nat)
    (batch : List SyncQueueItem) :
    SyncService.syncBatchStep w s f batch (Except.error ()) =
      (batch.foldl (fun wa item => SyncService.handleSyncError wa item "Batch failed") w,
       s, f + batch.length) := rfl

theorem syncLoop_log (remote : Nat → Except Unit (List ItemResult)) :
    ∀ (batches : List (List SyncQueueItem)) (k : Nat) (w : World) (s f : Nat),
      (SyncService.syncLoop remote k w s f batches).2.2.2 =
        batches.map SyncService.buildRequest := by
  intro batches
  induction batches with
  | nil =>
    intro k w s f
    rfl
  | cons b rest ih =>
    intro k w s f
    simp only [SyncService.syncLoop, List.map_cons]
    rw [ih]

theorem syncLoop_allFail (remote : Nat → Except Unit (List ItemResult))
    (hr : ∀ k, remote k = Except.error ()) :
    ∀ (batches : List (List SyncQueueItem)) (k : Nat) (w : World) (s f : Nat),
      SyncService.syncLoop remote k w s f batches =
        (batches.flatten.foldl
            (fun wa item => SyncService.handleSyncError wa item "Batch failed") w,
         s, f + batches.flatten.length, batches.map SyncService.buildRequest) := by
  intro batches
  induction batches with
  | nil =>
    intro k w s f
    simp [SyncService.syncLoop]
  | cons b rest ih =>
    intro k w s f
    simp only [SyncService.syncLoop, hr k, syncBatchStep_transportFail, ih (k + 1),
      List.flatten_cons, List.foldl_append, List.length_append, List.map_cons]
    simp [Nat.add_assoc]

theorem chunkList_length {α : Type} (l : List α) (hne : l ≠ []) :
    (chunkList l).length = (l.length + (SYNC_BATCH_SIZE - 1)) / SYNC_BATCH_SIZE :=
  chunksGo_length l.length l (Nat.le_refl _) hne

theorem find?_first {α : Type} (p : α → Bool) :
    ∀ (l : List α) (a : α), l.find? p = some a →
      p a = true ∧ ∃ l1 l2, l = l1 ++ a :: l2 ∧ ∀ x ∈ l1, p x = false := by
  intro l
  induction l with
  | nil =>
    intro a h
    simp [List.find?] at h
  | cons x xs ih =>
    intro a h
    by_cases hx : p x = true
    · rw [List.find?_cons_of_pos _ hx] at h
      cases h
      exact ⟨hx, [], xs, rfl, by intro y hy; simp at hy⟩
    · rw [List.find?_cons_of_neg _ hx] at h
      obtain ⟨hpa, l1, l2, heq, hall⟩ := ih a h
      refine ⟨hpa, x :: l1, l2, by rw [heq]; rfl, ?_⟩
      intro y hy
      rcases List.mem_cons.mp hy with rfl | hy2
      · exact Bool.not_eq_true _ ▸ (by simpa using hx)
      · exact hall y hy2

theorem find?_map_pred_invariant {α : Type} (g : α → α) (p : α → Bool)
    (hg : ∀ a, p (g a) = p a) :
    ∀ l : List α, (l.map g).find? p = (l.find? p).map g := by
  intro l
  induction l with
  | nil => rfl
  | cons x xs ih =>
    by_cases hx : p x = true
    · have hgx : p (g x) = true := by rw [hg]; exact hx
      rw [List.map_cons, List.find?_cons_of_pos _ hgx, List.find?_cons_of_pos _ hx]
      rfl
    · have hgx : ¬p (g x) = true := by rw [hg]; exact hx
      rw [List.map_cons, List.find?_cons_of_neg _ hgx, List.find?_cons_of_neg _ hx]
      exact ih

theorem expectedEntries_length (idStr : String) :
    ∀ (ps : List (TaskPatch × Nat)) (row : Nat),
      (expectedEntries idStr row ps).length = ps.length := by
  intro ps
  induction ps with
  | nil => intro row; rfl
  | cons pt rest ih =>
    intro row
    obtain ⟨p, t⟩ := pt
    simp only [expectedEntries, List.length_cons, ih]

theorem expectedEntries_fields (idStr : String) :
    ∀ (ps : List (TaskPatch × Nat)) (row : Nat), ∀ e ∈ expectedEntries idStr row ps,
      e.retry_count = 0 ∧ e.permanent_fail = false ∧ e.task_id = idStr ∧
        e.operation = "update" := by
  intro ps
  induction ps with
  | nil =>
    intro row e he
    simp [expectedEntries] at he
  | cons pt rest ih =>
    intro row e he
    obtain ⟨p, t⟩ := pt
    rw [expectedEntries] at he
    rcases List.mem_cons.mp he with rfl | he2
    · exact ⟨rfl, rfl, rfl, rfl⟩
    · exact ih (row + 1) e he2

theorem expectedEntries_times (idStr : String) :
    ∀ (ps : List (TaskPatch × Nat)) (row : Nat),
      (expectedEntries idStr row ps).map (fun e => e.updated_at) =
        ps.map (fun pt => pt.2) := by
  intro ps
  induction ps with
  | nil => intro row; rfl
  | cons pt rest ih =>
    intro row
    obtain ⟨p, t⟩ := pt
    simp only [expectedEntries, List.map_cons, ih]

theorem expectedEntries_ids (idStr : String) :
    ∀ (ps : List (TaskPatch × Nat)) (row : Nat),
      (expectedEntries idStr row ps).map (fun e => e.id) =
        List.range' row ps.length := by
  intro ps
  induction ps with
  | nil => intro row; rfl
  | cons pt rest ih =>
    intro row
    obtain ⟨p, t⟩ := pt
    simp only [expectedEntries, List.map_cons, ih, List.length_cons, List.range'_succ]

theorem replayUpdates_queue (idStr : String) :
    ∀ (ps : List (TaskPatch × Nat)) (w : World),
      (∀ pt ∈ ps, pt.1.id = none ∧ pt.1.is_deleted ≠ some true) →
      (∃ t0, Database.getTask w idStr = some t0 ∧ t0.is_deleted = false) →
      (replayUpdates idStr ps w).queue =
        w.queue ++ expectedEntries idStr w.nextRowId ps := by
  intro ps
  induction ps with
  | nil =>
    intro w _ _
    simp [replayUpdates, expectedEntries]
  | cons pt rest ih =>
    intro w hps hw
    obtain ⟨p, tm⟩ := pt
    obtain ⟨t0, hget, hdel⟩ := hw
    obtain ⟨hpid, hpdel⟩ := hps ⟨p, tm⟩ (List.mem_cons_self _ _)
    have hstep : TaskService.updateTask w idStr p tm =
        (some { applyPatch t0 p with updated_at := tm, sync_status := SyncStatus.pending },
         Database.addToSyncQueue
           (Database.updateTask w
             { applyPatch t0 p with updated_at := tm, sync_status := SyncStatus.pending })
           idStr "update" tm tm) := by
      rw [TaskService.updateTask, hget]
      simp [hdel]
    set updatedTask : Task :=
      { applyPatch t0 p with updated_at := tm, sync_status := SyncStatus.pending } with hupd
    have hid0 : t0.id = idStr := by
      have := List.find?_some hget
      simpa using this
    have hpid' : p.id = none := hpid
    have hidu : updatedTask.id = idStr := by
      rw [hupd]
      simp only [applyPatch, hpid', Option.getD_none]
      exact hid0
    have hdelu : updatedTask.is_deleted = false := by
      rw [hupd]
      simp only [applyPatch]
      cases hpd : p.is_deleted with
      | none => simpa [hpd] using hdel
      | some b =>
        cases b with
        | false => simp [hpd]
        | true => exact absurd hpd hpdel
    have hget' :
        Database.getTask
          (Database.addToSyncQueue (Database.updateTask w updatedTask) idStr "update" tm tm)
          idStr =
        some ({ t0 with
          title := updatedTask.title
          description := updatedTask.description
          completed := updatedTask.completed
          updated_at := updatedTask.updated_at
          is_deleted := updatedTask.is_deleted
          sync_status := updatedTask.sync_status
          server_id := updatedTask.server_id
          last_synced_at := updatedTask.last_synced_at }) := by
      show (w.tasks.map (fun t =>
          if t.id == updatedTask.id then
            { t with
              title := updatedTask.title
              description := updatedTask.description
              completed := updatedTask.completed
              updated_at := updatedTask.updated_at
              is_deleted := updatedTask.is_deleted
              sync_status := updatedTask.sync_status
              server_id := updatedTask.server_id
              last_synced_at := updatedTask.last_synced_at }
          else t)).find? (fun t => t.id == idStr) = _
      rw [find?_map_pred_invariant _ _ (by
        intro a
        by_cases ha : a.id == updatedTask.id <;> simp [ha])]
      rw [show w.tasks.find? (fun t => t.id == idStr) = some t0 from hget]
      have ht0 : (t0.id == updatedTask.id) = true := by
        rw [beq_iff_eq, hid0, hidu]
      show some (if t0.id == updatedTask.id then
          { t0 with
            title := updatedTask.title
            description := updatedTask.description
            completed := updatedTask.completed
            updated_at := updatedTask.updated_at
            is_deleted := updatedTask.is_deleted
            sync_status := updatedTask.sync_status
            server_id := updatedTask.server_id
            last_synced_at := updatedTask.last_synced_at }
        else t0) = _
      rw [if_pos ht0]
    have hrec := ih
      (Database.addToSyncQueue (Database.updateTask w updatedTask) idStr "update" tm tm)
      (fun q hq => hps q (List.mem_cons_of_mem _ hq))
      ⟨_, hget', by simpa using hdelu⟩
    rw [replayUpdates, hstep]
    simp only at hrec ⊢
    rw [hrec]
    simp only [Database.addToSyncQueue, Database.updateTask, expectedEntries]
    simp [List.append_assoc]

theorem chunksGo_mem {α : Type} :
    ∀ (n : Nat) (l : List α), l.length ≤ n →
      ∀ b ∈ chunksGo n l, b.length ≤ SYNC_BATCH_SIZE ∧ b ≠ [] := by
  intro n
  induction n with
  | zero =>
    intro l h b hb
    have hl : l = [] := List.eq_nil_of_length_eq_zero (Nat.le_zero.mp h)
    subst hl
    simp [chunksGo] at hb
  | succ n ih =>
    intro l h b hb
    match l with
    | [] => simp [chunksGo] at hb
    | a :: t =>
      simp only [chunksGo] at hb
      rcases List.mem_cons.mp hb with hb1 | hb2
      · subst hb1
        constructor
        · rw [List.length_take]
          exact min_le_left _ _
        · apply List.ne_nil_of_length_pos
          rw [List.length_take]
          simp only [List.length_cons, SYNC_BATCH_SIZE]
          omega
      · exact ih ((a :: t).drop SYNC_BATCH_SIZE)
          (by
            simp only [List.length_drop, List.length_cons, SYNC_BATCH_SIZE]
            simp only [List.length_cons] at h
            omega)
          b hb2

theorem sync_eq_of_empty (w : World) (remote : Nat → Except Unit (List ItemResult))
    (h : w.queue.isEmpty = true) :
    SyncService.sync w remote = ({ success := 0, failed := 0, skipped := 0 }, w, []) := by
  unfold SyncService.sync
  rw [if_pos h]

theorem sync_eq_of_nonempty (w : World) (remote : Nat → Except Unit (List ItemResult))
    (h : ¬w.queue.isEmpty = true) :
    SyncService.sync w remote =
      ({ success := (SyncService.syncLoop remote 0 w 0 0 (chunkList w.queue)).2.1,
         failed := (SyncService.syncLoop remote 0 w 0 0 (chunkList w.queue)).2.2.1,
         skipped := 0 },
       (SyncService.syncLoop remote 0 w 0 0 (chunkList w.queue)).1,
       (SyncService.syncLoop remote 0 w 0 0 (chunkList w.queue)).2.2.2) := by
  unfold SyncService.sync
  rw [if_neg h]

/-! ### Claim theorems -/

/-- C1 counterexample: with equal `updated_at` timestamps `resolveConflict`
returns the server record, not the local one — at `tieLocal` / `tieServer`
the claim "equal timestamps resolve to the local record" fails. -/
theorem resolveConflict_tie_counterexample :
    SyncService.resolveConflict tieLocal tieServer = tieServer ∧ tieServer ≠ tieLocal := by
  constructor
  · rfl
  · decide

/-- C1 (amended): `resolveConflict` is a pure function of the two
`updated_at` timestamps — the side with the strictly later timestamp
wins, and on EQUAL timestamps the server record wins, not the local
one. -/
theorem resolveConflict_timestamp_rule :
    ∀ localTask serverTask : Task,
      (serverTask.updated_at < localTask.updated_at →
        SyncService.resolveConflict localTask serverTask = localTask) ∧
      (localTask.updated_at < serverTask.updated_at →
        SyncService.resolveConflict localTask serverTask = serverTask) ∧
      (localTask.updated_at = serverTask.updated_at →
        SyncService.resolveConflict localTask serverTask = serverTask) := by
  intro l s
  unfold SyncService.resolveConflict
  refine ⟨fun h => if_pos h, fun h => if_neg (Nat.lt_asymm h), fun h => if_neg (by omega)⟩

/-- C1 witness: the timestamp rule applied at a concrete pair where the
local side is strictly later. -/
theorem resolveConflict_timestamp_rule_witness :
    olderServer.updated_at < tieLocal.updated_at ∧
      SyncService.resolveConflict tieLocal olderServer = tieLocal :=
  ⟨by decide, (resolveConflict_timestamp_rule tieLocal olderServer).1 (by decide)⟩

/-- C2: evaluation of `sync` on one queued `create` for record `A` that
the remote answers with `success` carrying authoritative data (the
assigned `server_id`).  The success count and the `server_id` application
happen, but routing the server data through `taskService.updateTask`
re-marks the record `'pending'` and enqueues a fresh `'update'` entry —
so the queue is NOT empty afterwards and the final `sync_status` is NOT
`'synced'`, contradicting the claimed end state. -/
theorem sync_success_with_serverdata_eval :
    (SyncService.sync worldA remoteSuccessWithData).1.success = 1 ∧
    (SyncService.sync worldA remoteSuccessWithData).2.1.tasks.map
        (fun t => (t.sync_status, t.server_id, t.last_synced_at)) =
      [(SyncStatus.pending, some "srv-1", some 200)] ∧
    (SyncService.sync worldA remoteSuccessWithData).2.1.queue.map
        (fun q => (q.task_id, q.operation)) = [("A", "update")] := by
  exact ⟨rfl, rfl, rfl⟩

/-- C3 counterexample: `worldAB` holds two pending entries for record `A`
and one for `B`; a single `success` outcome for `A` (one recorded
outcome, for the first entry) also removes the second `A` entry, which
never received an outcome of its own — only `B`'s entry survives. -/
theorem queue_removal_by_record_counterexample :
    (SyncService.sync worldAB remoteSuccessA).1.success = 1 ∧
    (SyncService.sync worldAB remoteSuccessA).2.1.queue.map (fun q => q.id) = [3] := by
  exact ⟨rfl, rfl⟩

/-- C3 (amended): queue entries are removed only by the success /
resolved-conflict path, but removal is keyed by the record id
(`DELETE ... WHERE task_id=?`): marking one record synced deletes EVERY
queue entry for that record, while entries of other records survive; the
`'error'` branch removes nothing and the failure path preserves the
queue's rowids. -/
theorem queue_removal_discipline :
    (∀ (w : World) (taskId : String),
        (SyncService.updateSyncStatus w taskId UpdateStatus.synced none).queue =
          w.queue.filter (fun q => !(q.task_id == taskId))) ∧
    (∀ (w : World) (taskId : String) (sd : Option TaskPatch),
        (SyncService.updateSyncStatus w taskId UpdateStatus.error sd).queue = w.queue) ∧
    (∀ (w : World) (item : SyncQueueItem) (msg : String),
        (SyncService.handleSyncError w item msg).queue.map (fun q => q.id) =
          w.queue.map (fun q => q.id)) := by
  refine ⟨fun w taskId => rfl, fun w taskId sd => rfl, fun w item msg => ?_⟩
  rw [handleSyncError_eq]
  simp only [List.map_map]
  apply List.map_congr_left
  intro q _
  simp only [Function.comp_apply, hseEntry_id]

/-- C4: evaluation of `sync` on one queued `update` for record `C` that
the remote answers with a failure.  The retry bookkeeping happens as
claimed (`retry_count` 1, message recorded, no terminal mark, failed
count 1), but the record's `sync_status` remains `'pending'`: no call
site ever invokes the `'error'` branch of `updateSyncStatus`, so the
claimed `sync_status = 'error'` never occurs. -/
theorem sync_failure_path_eval :
    (SyncService.sync worldC remoteFailC).1.failed = 1 ∧
    (SyncService.sync worldC remoteFailC).2.1.queue.map
        (fun q => (q.retry_count, q.permanent_fail, q.error)) =
      [(1, false, some "boom")] ∧
    (SyncService.sync worldC remoteFailC).2.1.tasks.map (fun t => t.sync_status) =
      [SyncStatus.pending] := by
  exact ⟨rfl, rfl, rfl⟩

/-- C5: evaluation of `sync` on a queue whose only entry is already
marked `permanent_fail` with `retry_count` 3.  The entry is still
drained and sent to the remote (it appears in the round-trip request
log), and a further failure advances its `retry_count` to 4 — the drain
applies no `permanent_fail` filter, contradicting the claimed
exclusion. -/
theorem sync_permanent_fail_still_retried_eval :
    (SyncService.sync worldD remoteDown).2.2 =
      [[{ taskId := "D", operation := "update", data := {} }]] ∧
    (SyncService.sync worldD remoteDown).2.1.queue.map
        (fun q => (q.retry_count, q.permanent_fail)) = [(4, true)] := by
  exact ⟨rfl, rfl⟩

/-- C6: when every batch round-trip fails at the transport level, `sync`
still returns an aggregate result (the model is a total function — no
error escapes), counts zero successes and one failure per queued item,
and every queue entry takes the per-item failure path exactly once: its
retry count is bumped by one, the message "Batch failed" is recorded, and
the terminal mark is set exactly when the bumped count reaches
`MAX_RETRY`. -/
theorem sync_transport_failure_cascades (w : World)
    (remote : Nat → Except Unit (List ItemResult))
    (hr : ∀ k, remote k = Except.error ())
    (hnd : (w.queue.map (fun q => q.id)).Nodup) :
    (SyncService.sync w remote).1.success = 0 ∧
    (SyncService.sync w remote).1.failed = w.queue.length ∧
    (SyncService.sync w remote).2.1.queue = w.queue.map (retryBump "Batch failed") := by
  by_cases hq : w.queue.isEmpty = true
  · have hnil : w.queue = [] := List.isEmpty_iff.mp hq
    rw [sync_eq_of_empty w remote hq]
    exact ⟨rfl, by rw [hnil]; rfl, by rw [hnil]; rfl⟩
  · rw [sync_eq_of_nonempty w remote hq,
      syncLoop_allFail remote hr (chunkList w.queue) 0 w 0 0]
    refine ⟨rfl, ?_, ?_⟩
    · show 0 + (chunkList w.queue).flatten.length = w.queue.length
      rw [chunkList_flatten]
      omega
    · show ((chunkList w.queue).flatten.foldl
          (fun wa item => SyncService.handleSyncError wa item "Batch failed") w).queue =
        w.queue.map (retryBump "Batch failed")
      rw [chunkList_flatten,
        foldl_handleSyncError_queue "Batch failed" w.queue w
          (fun i hi q hq0 h => List.inj_on_of_nodup_map hnd hq0 hi h) hnd]
      apply List.map_congr_left
      intro q hq0
      have hany : w.queue.any (fun i => i.id == q.id) = true := by
        rw [List.any_eq_true]
        exact ⟨q, hq0, by simp⟩
      rw [hany]
      rfl

/-- C6 witness: the cascade theorem applied to a concrete two-item queue
with a remote that always fails at the transport level. -/
theorem sync_transport_failure_cascades_witness :
    (worldEF.queue.map (fun q => q.id)).Nodup ∧
    (SyncService.sync worldEF remoteDown).1.failed = worldEF.queue.length ∧
    (SyncService.sync worldEF remoteDown).2.1.queue =
      worldEF.queue.map (retryBump "Batch failed") :=
  ⟨by decide,
   (sync_transport_failure_cascades worldEF remoteDown (fun _ => rfl) (by decide)).2.1,
   (sync_transport_failure_cascades worldEF remoteDown (fun _ => rfl) (by decide)).2.2⟩

/-- C7: for a non-empty queue, the drained list is partitioned into
contiguous non-empty batches of at most `SYNC_BATCH_SIZE` (10) items
whose concatenation is the original ordered queue, and `sync` performs
exactly one remote round-trip per batch: its request log is one request
per chunk, `⌈n / SYNC_BATCH_SIZE⌉` requests in total. -/
theorem sync_batching_plan (w : World) (remote : Nat → Except Unit (List ItemResult))
    (hne : w.queue ≠ []) :
    (chunkList w.queue).flatten = w.queue ∧
    (∀ b ∈ chunkList w.queue, b.length ≤ SYNC_BATCH_SIZE ∧ b ≠ []) ∧
    (SyncService.sync w remote).2.2 = (chunkList w.queue).map SyncService.buildRequest ∧
    (SyncService.sync w remote).2.2.length =
      (w.queue.length + (SYNC_BATCH_SIZE - 1)) / SYNC_BATCH_SIZE := by
  have hq : ¬w.queue.isEmpty = true := by
    intro hc
    exact hne (List.isEmpty_iff.mp hc)
  have hlog : (SyncService.sync w remote).2.2 =
      (chunkList w.queue).map SyncService.buildRequest := by
    rw [sync_eq_of_nonempty w remote hq]
    exact syncLoop_log remote (chunkList w.queue) 0 w 0 0
  refine ⟨chunkList_flatten w.queue,
    chunksGo_mem w.queue.length w.queue (Nat.le_refl _), hlog, ?_⟩
  rw [hlog, List.length_map, chunkList_length w.queue hne]

/-- C7 witness: 25 queued items yield exactly `⌈25/10⌉ = 3` round-trips,
of sizes 10, 10 and 5. -/
theorem sync_batching_plan_witness :
    world25.queue ≠ [] ∧
    (SyncService.sync world25 remoteDown).2.2.length =
      (world25.queue.length + (SYNC_BATCH_SIZE - 1)) / SYNC_BATCH_SIZE ∧
    (SyncService.sync world25 remoteDown).2.2.map (fun r => r.length) = [10, 10, 5] :=
  ⟨by decide, (sync_batching_plan world25 remoteDown (by decide)).2.2.2, by decide⟩

/-- C8: replaying `k` successive `updateTask` mutations of one existing,
non-deleted record appends exactly `k` fresh queue entries — no
deduplication — in mutation order (their `updated_at` values are the
mutation timestamps in sequence and their rowids are consecutive), each
with `retry_count = 0`, no permanent-failure mark, action `'update'` and
the record's id. -/
theorem enqueue_appends_without_dedup (idStr : String) (ps : List (TaskPatch × Nat))
    (w : World)
    (hps : ∀ pt ∈ ps, pt.1.id = none ∧ pt.1.is_deleted ≠ some true)
    (hw : ∃ t0, Database.getTask w idStr = some t0 ∧ t0.is_deleted = false) :
    (replayUpdates idStr ps w).queue = w.queue ++ expectedEntries idStr w.nextRowId ps ∧
    (expectedEntries idStr w.nextRowId ps).length = ps.length ∧
    (∀ e ∈ expectedEntries idStr w.nextRowId ps,
      e.retry_count = 0 ∧ e.permanent_fail = false ∧ e.task_id = idStr ∧
        e.operation = "update") ∧
    (expectedEntries idStr w.nextRowId ps).map (fun e => e.updated_at) =
      ps.map (fun pt => pt.2) ∧
    (expectedEntries idStr w.nextRowId ps).map (fun e => e.id) =
      List.range' w.nextRowId ps.length :=
  ⟨replayUpdates_queue idStr ps w hps hw,
   expectedEntries_length idStr ps w.nextRowId,
   expectedEntries_fields idStr ps w.nextRowId,
   expectedEntries_times idStr ps w.nextRowId,
   expectedEntries_ids idStr ps w.nextRowId⟩

/-- C8 witness: three successive updates of record `X` before any sync
pass produce exactly three distinct queue entries, in order. -/
theorem enqueue_appends_without_dedup_witness :
    (replayUpdates "X" threeUpdates worldX).queue =
      worldX.queue ++ expectedEntries "X" worldX.nextRowId threeUpdates ∧
    (expectedEntries "X" worldX.nextRowId threeUpdates).length = 3 :=
  ⟨(enqueue_appends_without_dedup "X" threeUpdates worldX (by decide)
      ⟨taskX, rfl, rfl⟩).1,
   by decide⟩

/-- C9: the connectivity probe is a pure boolean gate — it leaves the
state unchanged in every case, never fails (it is a total function into
`Bool`), answers `true` exactly when the health endpoint responded
within the timeout, and the configured timeout is 5000 ms (5 seconds). -/
theorem checkConnectivity_pure_probe :
    ∀ (w : World) (rt : Option Nat),
      (SyncService.checkConnectivity w rt).2 = w ∧
      ((SyncService.checkConnectivity w rt).1 = true ↔
        ∃ t, rt = some t ∧ t ≤ CONNECTIVITY_TIMEOUT_MS) ∧
      CONNECTIVITY_TIMEOUT_MS = 5000 := by
  intro w rt
  refine ⟨?_, ?_, rfl⟩
  · cases rt <;> rfl
  · cases rt with
    | none => simp [SyncService.checkConnectivity]
    | some t => simp [SyncService.checkConnectivity]

/-- C10: interpreting a batch response — a per-item result whose
`taskId` matches no queue item of the batch is skipped outright (the
processing continuation is identical, so it contributes to neither count
and changes no state), and a matched result is always matched to the
FIRST batch item carrying that `task_id` (every earlier item has a
different `task_id`), so later duplicates never individually receive an
outcome. -/
theorem batch_result_matching :
    (∀ (w : World) (items : List SyncQueueItem) (s f : Nat) (res : ItemResult)
        (rest : List ItemResult),
        items.find? (fun i => i.task_id == res.taskId) = none →
        SyncService.processResults items (res :: rest) w s f =
          SyncService.processResults items rest w s f) ∧
    (∀ (items : List SyncQueueItem) (res : ItemResult) (item : SyncQueueItem),
        items.find? (fun i => i.task_id == res.taskId) = some item →
        item.task_id = res.taskId ∧
        ∃ pre post, items = pre ++ item :: post ∧ ∀ j ∈ pre, j.task_id ≠ res.taskId) := by
  constructor
  · intro w items s f res rest h
    simp [SyncService.processResults, h]
  · intro items res item h
    obtain ⟨hp, l1, l2, heq, hall⟩ := find?_first _ items item h
    refine ⟨by simpa using hp, l1, l2, heq, ?_⟩
    intro j hj
    have hj' := hall j hj
    simpa using hj'

/-- C10 witness: the matching rules applied to a two-item batch sharing
`task_id` `"T"` and to a stray result naming an absent record. -/
theorem batch_result_matching_witness :
    (SyncService.processResults dupItems [strayResult] worldT 0 0 =
      SyncService.processResults dupItems [] worldT 0 0) ∧
    (dupItem1.task_id = dupResult.taskId ∧
      ∃ pre post, dupItems = pre ++ dupItem1 :: post ∧
        ∀ j ∈ pre, j.task_id ≠ dupResult.taskId) :=
  ⟨batch_result_matching.1 worldT dupItems 0 0 strayResult [] (by decide),
   batch_result_matching.2 dupItems dupResult dupItem1 (by decide)⟩

end OfflineSync
